import Mathlib

/-!
Shallow embedding of `TTS/tts/utils/speakers.py` (class `SpeakerManager`) and
proofs about its speaker registry: speaker-id assignment, x-vector storage and
aggregation, and (de)serialization of the two metafile formats.

Modelling conventions:
* Python/JSON values are modelled by the inductive `Json`; numbers are exact
  rationals (`ℚ`).
* Python exceptions are modelled by `Except PyErr`.
* A Python dict is an insertion-ordered association list `List (String × Json)`
  with distinct keys (as produced by `json.load`).
* CPython's hash-dependent set iteration order (`list(set(...))`) is modelled by
  an explicit enumeration function constrained by `IsSetEnum`.
-/

/-- Error classes raised by the Python code under consideration. -/
inductive PyErr where
  | ioErr
  | jsonDecodeErr
  | keyErr (k : String)
  | typeErr
  | valueErr (m : String)
  | indexErr
  | assertErr (m : String)
deriving DecidableEq

/-- JSON documents / dynamically-typed Python values. Objects keep the
insertion order of their key-value pairs, as Python dicts do. -/
inductive Json where
  | null
  | bool (b : Bool)
  | num (q : ℚ)
  | str (s : String)
  | arr (xs : List Json)
  | obj (kvs : List (String × Json))

/- ### Python string ordering

CPython compares strings lexicographically by code point.  We embed that order
as a boolean comparator on `String.data` (Lean's builtin `String` order has the
same graph but its decision procedure does not reduce in the kernel). -/

/-- Lexicographic (by code point) comparison of character lists. -/
def lexLe : List Char → List Char → Bool
  | [], _ => true
  | _ :: _, [] => false
  | a :: as, b :: bs =>
    if a.toNat < b.toNat then true
    else if b.toNat < a.toNat then false
    else lexLe as bs

/-- Python's `<=` on strings. -/
def strLe (a b : String) : Prop := lexLe a.data b.data = true

instance : DecidableRel strLe := fun _ _ => instDecidableEqBool _ _

theorem lexLe_total (a b : List Char) : lexLe a b = true ∨ lexLe b a = true := by
  induction a generalizing b with
  | nil => left; rfl
  | cons x xs ih =>
    cases b with
    | nil => right; rfl
    | cons y ys =>
      rcases Nat.lt_trichotomy x.toNat y.toNat with h | h | h
      · left; simp [lexLe, h]
      · rcases ih ys with h2 | h2
        · left; simp [lexLe, h, h2]
        · right; simp [lexLe, h.symm, h2]
      · right; simp [lexLe, h]

theorem char_eq_of_toNat_eq {a b : Char} (h : a.toNat = b.toNat) : a = b :=
  Char.ext (UInt32.ext h)

theorem lexLe_trans : ∀ {a b c : List Char},
    lexLe a b = true → lexLe b c = true → lexLe a c = true := by
  intro a
  induction a with
  | nil => intro b c _ _; rfl
  | cons x xs ih =>
    intro b c h1 h2
    cases b with
    | nil => simp [lexLe] at h1
    | cons y ys =>
      cases c with
      | nil => simp [lexLe] at h2
      | cons z zs =>
        rcases Nat.lt_trichotomy x.toNat y.toNat with hxy | hxy | hxy
        · rcases Nat.lt_trichotomy y.toNat z.toNat with hyz | hyz | hyz
          · simp [lexLe, show x.toNat < z.toNat from by omega]
          · simp [lexLe, show x.toNat < z.toNat from by omega]
          · exfalso
            simp [lexLe, show ¬ y.toNat < z.toNat from by omega, hyz] at h2
        · have hx : x = y := char_eq_of_toNat_eq hxy
          subst hx
          simp only [lexLe, lt_self_iff_false, if_false] at h1
          rcases Nat.lt_trichotomy x.toNat z.toNat with hxz | hxz | hxz
          · simp [lexLe, hxz]
          · have hz : x = z := char_eq_of_toNat_eq hxz
            subst hz
            simp only [lexLe, lt_self_iff_false, if_false] at h2 ⊢
            exact ih h1 h2
          · exfalso
            simp [lexLe, show ¬ x.toNat < z.toNat from by omega, hxz] at h2
        · exfalso
          simp [lexLe, show ¬ x.toNat < y.toNat from by omega, hxy] at h1

theorem lexLe_antisymm : ∀ {a b : List Char},
    lexLe a b = true → lexLe b a = true → a = b := by
  intro a
  induction a with
  | nil =>
    intro b _ h2
    cases b with
    | nil => rfl
    | cons y ys => simp [lexLe] at h2
  | cons x xs ih =>
    intro b h1 h2
    cases b with
    | nil => simp [lexLe] at h1
    | cons y ys =>
      simp only [lexLe] at h1 h2
      split_ifs at h1 h2 with hxy hyx
      · omega
      · have hx : x = y := char_eq_of_toNat_eq (by omega)
        subst hx
        exact congrArg (x :: ·) (ih h1 h2)

theorem string_ext {a b : String} (h : a.data = b.data) : a = b := by
  cases a; cases b; simp_all

instance : IsTotal String strLe := ⟨fun a b => lexLe_total a.data b.data⟩

instance : IsTrans String strLe := ⟨fun _ _ _ h1 h2 => lexLe_trans h1 h2⟩

instance : IsAntisymm String strLe :=
  ⟨fun _ _ h1 h2 => string_ext (lexLe_antisymm h1 h2)⟩

/-- Python's `sorted` on a list of strings. -/
def pySorted (l : List String) : List String := List.insertionSort strLe l

/-- Python's `sorted(set(...))` on strings: the canonical ascending enumeration
of the distinct elements. -/
def pySortedSet (l : List String) : List String := pySorted l.dedup

theorem pySorted_sorted (l : List String) : (pySorted l).Sorted strLe :=
  List.sorted_insertionSort strLe l

theorem pySorted_perm (l : List String) : (pySorted l).Perm l :=
  List.perm_insertionSort strLe l

theorem pySortedSet_nodup (l : List String) : (pySortedSet l).Nodup :=
  ((pySorted_perm l.dedup).nodup_iff).mpr l.nodup_dedup

theorem pySortedSet_mem (l : List String) (a : String) :
    a ∈ pySortedSet l ↔ a ∈ l := by
  rw [pySortedSet, (pySorted_perm l.dedup).mem_iff, List.mem_dedup]

theorem pySortedSet_sorted (l : List String) : (pySortedSet l).Sorted strLe :=
  pySorted_sorted l.dedup

/-- The canonical sorted enumeration of the distinct elements depends only on
the set of elements. -/
theorem pySortedSet_congr {l₁ l₂ : List String} (h : l₁.toFinset = l₂.toFinset) :
    pySortedSet l₁ = pySortedSet l₂ := by
  have hperm : l₁.dedup.Perm l₂.dedup := List.toFinset_eq_iff_perm_dedup.mp h
  exact List.eq_of_perm_of_sorted
    (((pySorted_perm l₁.dedup).trans hperm).trans (pySorted_perm l₂.dedup).symm)
    (pySorted_sorted l₁.dedup) (pySorted_sorted l₂.dedup)

/- ### The speaker registry data model

`SpeakerManager.__init__` sets `self.x_vectors = {}`, `self.speaker_ids = []`,
`self.clip_ids = []`.  All three fields are dynamically typed in Python
(`speaker_ids` is an empty list, later either a dict or a list of names), so
each is modelled as a `Json` value. -/

structure Registry where
  x_vectors : Json
  speaker_ids : Json
  clip_ids : Json

/-- The registry state right after `SpeakerManager.__init__` (with no file
paths and no data items given). -/
def Registry.initial : Registry := ⟨Json.obj [], Json.arr [], Json.arr []⟩

/-- Python subscription `j[k]` for a string key: succeeds on dict-like values
holding the key, raises `KeyError` when the key is absent and `TypeError` when
the value is not a dict. -/
def pyGetItem (j : Json) (k : String) : Except PyErr Json :=
  match j with
  | .obj kvs =>
    match kvs.lookup k with
    | some v => .ok v
    | none => .error (.keyErr k)
  | _ => .error .typeErr

/-- Python `len()` of a dict / list / string; `TypeError` otherwise. -/
def pyLen : Json → Except PyErr Nat
  | .obj kvs => .ok kvs.length
  | .arr xs => .ok xs.length
  | .str s => .ok s.length
  | _ => .error .typeErr

/-- Effectful map over a list, short-circuiting on the first error (the order
in which a Python generator evaluates and raises). -/
def mapEx {α β : Type} (f : α → Except PyErr β) : List α → Except PyErr (List β)
  | [] => .ok []
  | a :: l =>
    match f a with
    | .error e => .error e
    | .ok b =>
      match mapEx f l with
      | .error e => .error e
      | .ok bs => .ok (b :: bs)

/-- Python equality test between a JSON value and a string (`x["name"] ==
speaker_idx`): true exactly when the value is that string. -/
def jsonEqStr (j : Json) (s : String) : Bool :=
  match j with
  | .str t => t == s
  | _ => false

/-- Python list slicing `l[:k]` for an arbitrary integer bound. -/
def pySliceTo {α : Type} (l : List α) (k : Int) : List α :=
  if k < 0 then l.take (l.length - k.natAbs) else l.take k.toNat

/- ### Set iteration order

`list(set(...))` enumerates a set in CPython's hash-dependent iteration order.
The order is modelled by an explicit enumeration function; `IsSetEnum` states
the only guarantee CPython gives: the enumeration lists each distinct element
exactly once. -/

def IsSetEnum (enum : List String → List String) : Prop :=
  ∀ l, (enum l).Nodup ∧ ∀ a, a ∈ enum l ↔ a ∈ l

/-- One admissible set iteration order: first occurrences, in insertion order. -/
def setEnumFirst (l : List String) : List String := l.dedup

/-- Another admissible set iteration order: first occurrences, reversed. -/
def setEnumRev (l : List String) : List String := l.dedup.reverse

theorem setEnumFirst_isSetEnum : IsSetEnum setEnumFirst :=
  fun l => ⟨l.nodup_dedup, fun _ => List.mem_dedup⟩

theorem setEnumRev_isSetEnum : IsSetEnum setEnumRev :=
  fun l => ⟨List.nodup_reverse.mpr l.nodup_dedup,
    fun a => by simp [setEnumRev, List.mem_dedup]⟩

/- ### SpeakerManager operations

State-changing methods are translated as explicit state transformers
`Registry → ... → Except PyErr β × Registry`; the second component is the
post-state (identical to the pre-state when the method body assigns no
`self.` field before raising). -/

/-- The id mapping `{name: i for i, name in enumerate(speakers)}`. -/
def idMapOf (speakers : List String) : List (String × Json) :=
  speakers.enum.map (fun p => (p.2, Json.num p.1))

/-- `parse_speakers_from_items(self, items)`:
`speakers = sorted({item[2] for item in items})`;
`self.speaker_ids = {name: i for i, name in enumerate(speakers)}`;
returns `(self.speaker_ids, len(self.speaker_ids))`.
Items are modelled as lists of strings; `item[2]` raises `IndexError` on a
too-short item, before any field is assigned. -/
def parse_speakers_from_items (st : Registry) (items : List (List String)) :
    Except PyErr (Json × Nat) × Registry :=
  if ∀ it ∈ items, 2 < it.length then
    let speakers := pySortedSet (items.map (fun it => it.getD 2 ""))
    let mapping := Json.obj (idMapOf speakers)
    (Except.ok (mapping, (idMapOf speakers).length), { st with speaker_ids := mapping })
  else (Except.error .indexErr, st)

/-- `save_ids_file`: the document written is `json.dump(self.speaker_ids)`,
modelled as the JSON value itself. -/
def save_ids_file (st : Registry) : Json := st.speaker_ids

/-- `load_ids_file`: `self.speaker_ids = self._load_json(file_path)`.  The
`doc` argument is the outcome of `_load_json` for the given path: an
`IOError`/JSON-decode error, or the parsed document. -/
def load_ids_file (st : Registry) (doc : Except PyErr Json) :
    Except PyErr Unit × Registry :=
  match doc with
  | .error e => (.error e, st)
  | .ok j => (.ok (), { st with speaker_ids := j })

/-- `save_x_vectors_file`: writes `json.dump(self.x_vectors)`. -/
def save_x_vectors_file (st : Registry) : Json := st.x_vectors

/-- Evaluation of `x["name"]` followed by its use as a sort key.  A value
without the key raises `KeyError`; a non-dict value raises `TypeError`.  A
non-string name is also modelled as a `TypeError`: `sorted` over mixed
name types raises one in Python 3 (the all-numeric-names corner is not
exercised by any claim). -/
def speakerNameOf (x : Json) : Except PyErr String :=
  match pyGetItem x "name" with
  | .error e => .error e
  | .ok (.str s) => .ok s
  | .ok _ => .error .typeErr

/-- `load_x_vectors_file`:
`self.x_vectors = self._load_json(file_path)`;
`self.speaker_ids = list(set(sorted(x["name"] for x in self.x_vectors.values())))`;
`self.clip_ids = list(set(sorted(clip_name for clip_name in self.x_vectors.keys())))`.
The first assignment happens before the derived indices are computed, so a
document that parses but has the wrong shape leaves `x_vectors` already
replaced.  `enum` is the process's set iteration order. -/
def load_x_vectors_file (st : Registry) (doc : Except PyErr Json)
    (enum : List String → List String) : Except PyErr Unit × Registry :=
  match doc with
  | .error e => (.error e, st)
  | .ok j =>
    let st1 := { st with x_vectors := j }
    match j with
    | .obj kvs =>
      match mapEx speakerNameOf (kvs.map Prod.snd) with
      | .error e => (.error e, st1)
      | .ok names =>
        let st2 := { st1 with
          speaker_ids := Json.arr ((enum (pySorted names)).map Json.str) }
        ( .ok (),
          { st2 with
            clip_ids := Json.arr ((enum (pySorted (kvs.map Prod.fst))).map Json.str) })
    | _ => (.error .typeErr, st1)

/-- `get_x_vector_by_clip(self, clip_idx)`: `self.x_vectors[clip_idx]["embedding"]`. -/
def get_x_vector_by_clip (st : Registry) (clip_idx : String) : Except PyErr Json :=
  match pyGetItem st.x_vectors clip_idx with
  | .error e => .error e
  | .ok entry => pyGetItem entry "embedding"

/-- The list comprehension
`[x["embedding"] for x in values if x["name"] == speaker_idx]`:
`x["name"]` is evaluated for every value, `x["embedding"]` only for matches. -/
def collectEmb (xs : List Json) (speaker_idx : String) : Except PyErr (List Json) :=
  match xs with
  | [] => .ok []
  | x :: rest =>
    match pyGetItem x "name" with
    | .error e => .error e
    | .ok nm =>
      if jsonEqStr nm speaker_idx then
        match pyGetItem x "embedding" with
        | .error e => .error e
        | .ok emb =>
          match collectEmb rest speaker_idx with
          | .error e => .error e
          | .ok tl => .ok (emb :: tl)
      else
        collectEmb rest speaker_idx

/-- `get_x_vectors_by_speaker(self, speaker_idx)`. -/
def get_x_vectors_by_speaker (st : Registry) (speaker_idx : String) :
    Except PyErr (List Json) :=
  match st.x_vectors with
  | .obj kvs => collectEmb (kvs.map Prod.snd) speaker_idx
  | _ => .error .typeErr

/- ### numpy mean over stacked vectors -/

/-- Elementwise vector addition (the reduction step of `np.ndarray.mean(0)`). -/
def addVec (a b : List ℚ) : List ℚ := List.zipWith (· + ·) a b

/-- `np.stack(l).mean(0)` for `l` of length `≥ 1` whose members all have
length `d`: sum along axis 0, then divide by the number of rows. -/
def npMean0 (l : List (List ℚ)) (d : Nat) : List ℚ :=
  (l.foldl addVec (List.replicate d 0)).map (fun x => x / (l.length : ℚ))

/-- Conversion of one JSON embedding to a numeric vector, as `np.stack`
coerces its inputs; anything but an array of numbers fails. -/
def jsonToVec : Json → Except PyErr (List ℚ)
  | .arr xs => mapEx (fun x =>
      match x with
      | .num q => Except.ok q
      | _ => Except.error (.valueErr "could not convert input to float array")) xs
  | _ => .error (.valueErr "input is not an array")

/-- `np.stack(vs).mean(0)`: fails on an empty list or on rows of unequal
length, otherwise takes the elementwise arithmetic mean. -/
def npStackMean (vs : List (List ℚ)) : Except PyErr (List ℚ) :=
  match vs with
  | [] => .error (.valueErr "need at least one array to stack")
  | v :: tl =>
    if tl.all (fun w => w.length == v.length) then
      .ok (npMean0 (v :: tl) v.length)
    else .error (.valueErr "all input arrays must have the same shape")

/-- `np.stack(l).mean(0)` applied to a list of JSON embeddings. -/
def npStackMeanJ (l : List Json) : Except PyErr (List ℚ) :=
  match mapEx jsonToVec l with
  | .error e => .error e
  | .ok vs => npStackMean vs

/-- The exact text of the failed-assert message in `get_mean_x_vector`. -/
def meanAssertMsg (speaker_idx : String) (num_samples : Int) : String :=
  " [!] speaker " ++ speaker_idx ++ " has number of samples < " ++ toString num_samples

/-- `get_mean_x_vector(self, speaker_idx, num_samples=None, randomize=False)`.
`rnd` models `random.choices(x_vectors, k=num_samples)` (the hidden global
random state): an arbitrary selection function consulted only on the
`randomize=True` path. -/
def get_mean_x_vector (st : Registry) (speaker_idx : String)
    (num_samples : Option Int) (randomize : Bool)
    (rnd : List Json → Int → List Json) : Except PyErr (List ℚ) :=
  match get_x_vectors_by_speaker st speaker_idx with
  | .error e => .error e
  | .ok x_vectors =>
    match num_samples with
    | none => npStackMeanJ x_vectors
    | some k =>
      if (x_vectors.length : Int) ≥ k then
        if randomize then npStackMeanJ (rnd x_vectors k)
        else npStackMeanJ (pySliceTo x_vectors k)
      else
        .error (.assertErr (meanAssertMsg speaker_idx k))

/-- `get_speakers(self)`: returns `self.speaker_ids`. -/
def get_speakers (st : Registry) : Json := st.speaker_ids

/-- `get_clips(self)`: `sorted(self.x_vectors.keys())`. -/
def get_clips (st : Registry) : Except PyErr (List String) :=
  match st.x_vectors with
  | .obj kvs => .ok (pySorted (kvs.map Prod.fst))
  | _ => .error .typeErr

/-- Property `num_speakers`: `len(self.speaker_ids)`. -/
def num_speakers (st : Registry) : Except PyErr Nat := pyLen st.speaker_ids

/-- Property `x_vector_dim`:
`len(self.x_vectors[list(self.x_vectors.keys())[0]]["embedding"])`. -/
def x_vector_dim (st : Registry) : Except PyErr Nat :=
  match st.x_vectors with
  | .obj kvs =>
    match kvs with
    | [] => .error .indexErr
    | (k0, _) :: _ =>
      match pyGetItem st.x_vectors k0 with
      | .error e => .error e
      | .ok entry =>
        match pyGetItem entry "embedding" with
        | .error e => .error e
        | .ok emb => pyLen emb
  | _ => .error .typeErr

/- ### State-transformer views of the query operations

Each query method of `SpeakerManager` reads `self` and assigns no field; the
`…S` forms make the (un)changed post-state explicit for the frame theorems. -/

def get_x_vector_by_clipS (st : Registry) (clip_idx : String) :
    Except PyErr Json × Registry := (get_x_vector_by_clip st clip_idx, st)

def get_x_vectors_by_speakerS (st : Registry) (speaker_idx : String) :
    Except PyErr (List Json) × Registry := (get_x_vectors_by_speaker st speaker_idx, st)

def get_mean_x_vectorS (st : Registry) (speaker_idx : String)
    (num_samples : Option Int) (randomize : Bool)
    (rnd : List Json → Int → List Json) : Except PyErr (List ℚ) × Registry :=
  (get_mean_x_vector st speaker_idx num_samples randomize rnd, st)

def get_speakersS (st : Registry) : Json × Registry := (get_speakers st, st)

def get_clipsS (st : Registry) : Except PyErr (List String) × Registry :=
  (get_clips st, st)

def num_speakersS (st : Registry) : Except PyErr Nat × Registry :=
  (num_speakers st, st)

def x_vector_dimS (st : Registry) : Except PyErr Nat × Registry :=
  (x_vector_dim st, st)

/- ### The encoder adapter (black-box view)

`compute_x_vector_from_clip` treats `_compute` (feature extraction plus
encoder inference) as a fixed function from a wav path to a 2-D embedding
tensor of shape `(batch, dim)`; `[0]` selects the first batch row. -/

/-- The `wav_file` argument: a single path or a list of paths. -/
inductive WavInput where
  | single (path : String)
  | multi (paths : List String)

/-- Elementwise tensor addition (torch `+=` on same-shaped 2-D tensors). -/
def matAdd (A B : List (List ℚ)) : List (List ℚ) := List.zipWith addVec A B

/-- `tensor[0]`: the first row; `IndexError` on an empty tensor. -/
def tensorHeadRow : List (List ℚ) → Except PyErr (List ℚ)
  | [] => .error .indexErr
  | r :: _ => .ok r

/-- `compute_x_vector_from_clip(self, wav_file)`: for a list, sums the
per-path embeddings in a running accumulator and divides by the number of
paths, then returns row 0; for a single path, returns row 0 of its embedding.
An empty list reaches `None / len(wav_file)`, a `TypeError`. -/
def compute_x_vector_from_clip (compute : String → List (List ℚ)) :
    WavInput → Except PyErr (List ℚ)
  | .single p => tensorHeadRow (compute p)
  | .multi [] => .error .typeErr
  | .multi (w :: ws) =>
    let total := ws.foldl (fun acc wf => matAdd acc (compute wf)) (compute w)
    let meanT := total.map (fun row => row.map (fun x => x / ((ws.length + 1 : Nat) : ℚ)))
    tensorHeadRow meanT

/- ### Definitions taken from the specification's wording

These restate properties in the spec's own terms, to be compared with what the
code computes. -/

/-- Elementwise arithmetic mean as the spec words it: component `j` is the sum
of the vectors' components `j` divided by the number of vectors. -/
def meanVec (l : List (List ℚ)) : List ℚ :=
  (List.range (l.headD []).length).map
    (fun j => ((l.map (fun v => v.getD j 0)).sum) / (l.length : ℚ))

/-- The integer value of a JSON number, when it is one. -/
def jsonIntOf : Json → Option Int
  | .num q => if q.den = 1 then some q.num else none
  | _ => none

/-- Number of distinct integer ids occurring in an id-mapping document. -/
def distinctIdCount (j : Json) : Option Nat :=
  match j with
  | .obj kvs =>
    (kvs.foldr (fun kv acc =>
      match jsonIntOf kv.2, acc with
      | some i, some l => some (i :: l)
      | _, _ => none) (some [])).map (fun ids => ids.dedup.length)
  | _ => none

/-- Ascending order in the sense of the spec's sorted indices. -/
def StrAscending (l : List String) : Prop := l.Sorted strLe

instance : DecidablePred StrAscending := fun l =>
  List.decidableSorted l (r := strLe)

/- ### Arithmetic lemmas about the stacked mean -/

theorem list_eq_range_map_getD (l : List ℚ) :
    l = (List.range l.length).map (fun j => l.getD j 0) := by
  apply List.ext_getElem (by simp)
  intro i h1 h2
  simp only [List.getElem_map, List.getElem_range]
  exact (List.getD_eq_getElem l 0 h1).symm

theorem getD_replicate_zero (d j : Nat) : (List.replicate d (0 : ℚ)).getD j 0 = 0 := by
  rcases Nat.lt_or_ge j d with h | h
  · rw [List.getD_eq_getElem _ _ (by simpa using h)]
    simp
  · rw [List.getD_eq_default]
    simpa using h

theorem addVec_length (a b : List ℚ) : (addVec a b).length = min a.length b.length := by
  simp [addVec]

theorem getD_addVec (a b : List ℚ) (j : Nat) (hj : j < a.length) (hb : j < b.length) :
    (addVec a b).getD j 0 = a.getD j 0 + b.getD j 0 := by
  rw [addVec, List.getD_eq_getElem _ _ (by simp; omega),
    List.getD_eq_getElem _ _ hj, List.getD_eq_getElem _ _ hb]
  simp

theorem foldl_addVec_eq (l : List (List ℚ)) :
    ∀ acc : List ℚ, (∀ v ∈ l, v.length = acc.length) →
      l.foldl addVec acc =
        (List.range acc.length).map
          (fun j => acc.getD j 0 + (l.map (fun v => v.getD j 0)).sum) := by
  induction l with
  | nil =>
    intro acc _
    simpa using list_eq_range_map_getD acc
  | cons v tl ih =>
    intro acc hlen
    have hv : v.length = acc.length := hlen v (by simp)
    have hacc : (addVec acc v).length = acc.length := by
      rw [addVec_length, hv, Nat.min_self]
    rw [List.foldl_cons,
      ih (addVec acc v) (fun w hw => by rw [hacc]; exact hlen w (by simp [hw])), hacc]
    apply List.map_congr_left
    intro j hj
    rw [List.mem_range] at hj
    rw [getD_addVec acc v j hj (by omega), List.map_cons, List.sum_cons]
    ring

theorem npMean0_eq_meanVec (v : List ℚ) (tl : List (List ℚ))
    (h : ∀ w ∈ tl, w.length = v.length) :
    npMean0 (v :: tl) v.length = meanVec (v :: tl) := by
  rw [npMean0,
    foldl_addVec_eq (v :: tl) (List.replicate v.length 0)
      (by intro w hw
          rw [List.length_replicate]
          rcases List.mem_cons.mp hw with h1 | h1
          · rw [h1]
          · exact h w h1),
    List.length_replicate, List.map_map, meanVec]
  apply List.map_congr_left
  intro j _
  simp [getD_replicate_zero]

theorem meanVec_single (v : List ℚ) : meanVec [v] = v := by
  rw [meanVec]
  simp only [List.headD_cons, List.map_cons, List.map_nil, List.sum_cons,
    List.sum_nil, add_zero, List.length_cons, List.length_nil, Nat.cast_one,
    div_one, Nat.zero_add]
  exact (list_eq_range_map_getD v).symm

theorem npStackMean_ok (v : List ℚ) (tl : List (List ℚ))
    (h : ∀ w ∈ tl, w.length = v.length) :
    npStackMean (v :: tl) = .ok (meanVec (v :: tl)) := by
  rw [npStackMean]
  have : tl.all (fun w => w.length == v.length) = true := by
    rw [List.all_eq_true]
    intro w hw
    exact beq_iff_eq.mpr (h w hw)
  rw [if_pos this, npMean0_eq_meanVec v tl h]

theorem mapEx_ok_of_forall {α β : Type} (f : α → Except PyErr β) (g : α → β)
    (l : List α) (h : ∀ a ∈ l, f a = .ok (g a)) :
    mapEx f l = .ok (l.map g) := by
  induction l with
  | nil => rfl
  | cons a t ih =>
    rw [mapEx, h a (by simp), List.map_cons]
    rw [ih (fun b hb => h b (by simp [hb]))]

theorem mapEx_take {α β : Type} (f : α → Except PyErr β) :
    ∀ (l : List α) (r : List β), mapEx f l = .ok r →
      ∀ k : Nat, mapEx f (l.take k) = .ok (r.take k) := by
  intro l
  induction l with
  | nil =>
    intro r hr k
    rw [mapEx] at hr
    cases hr
    simp [mapEx]
  | cons a t ih =>
    intro r hr k
    rw [mapEx] at hr
    cases hfa : f a with
    | error e => rw [hfa] at hr; exact absurd hr (by simp)
    | ok b =>
      rw [hfa] at hr
      cases hft : mapEx f t with
      | error e => rw [hft] at hr; exact absurd hr (by simp)
      | ok bs =>
        rw [hft] at hr
        cases hr
        cases k with
        | zero => simp [mapEx]
        | succ k =>
          rw [List.take_succ_cons, List.take_succ_cons, mapEx, hfa, ih bs hft k]

/- ### Lemmas about the id mapping built by `parse_speakers_from_items` -/

theorem lookup_idMap_enumFrom :
    ∀ (speakers : List String) (i : Nat) (s : String), s ∈ speakers →
      ((speakers.enumFrom i).map (fun p => (p.2, Json.num p.1))).lookup s
        = some (Json.num ((i + speakers.indexOf s : Nat))) := by
  intro speakers
  induction speakers with
  | nil => intro i s hs; simp at hs
  | cons x xs ih =>
    intro i s hs
    rw [List.enumFrom_cons, List.map_cons]
    by_cases hsx : s = x
    · subst hsx
      simp [List.lookup, List.indexOf_cons_self]
    · have hbeq : (s == x) = false := beq_eq_false_iff_ne.mpr hsx
      rw [List.lookup, hbeq]
      rw [ih (i + 1) s ((List.mem_cons.mp hs).resolve_left hsx)]
      rw [List.indexOf_cons_ne _ (Ne.symm hsx)]
      rw [show i + 1 + List.indexOf s xs = i + Nat.succ (List.indexOf s xs) from by omega]

theorem idMapOf_lookup (speakers : List String) (s : String) (hs : s ∈ speakers) :
    (idMapOf speakers).lookup s = some (Json.num ((speakers.indexOf s : Nat))) := by
  have h := lookup_idMap_enumFrom speakers 0 s hs
  rw [Nat.zero_add] at h
  exact h

theorem idMapOf_keys (speakers : List String) :
    (idMapOf speakers).map Prod.fst = speakers := by
  rw [idMapOf, List.map_map]
  exact List.enum_map_snd speakers

theorem idMapOf_values (speakers : List String) :
    (idMapOf speakers).map Prod.snd
      = (List.range speakers.length).map (fun i => Json.num (i : Nat)) := by
  rw [idMapOf, List.map_map,
    show (Prod.snd ∘ fun p : Nat × String => (p.2, Json.num (p.1 : Nat)))
        = (fun i : Nat => Json.num (i : Nat)) ∘ Prod.fst from rfl,
    ← List.map_map, List.enum_map_fst]

theorem idMapOf_length (speakers : List String) :
    (idMapOf speakers).length = speakers.length := by
  rw [idMapOf, List.length_map, List.enum_length]

theorem mapEx_ok_length {α β : Type} (f : α → Except PyErr β) :
    ∀ (l : List α) (r : List β), mapEx f l = .ok r → r.length = l.length := by
  intro l
  induction l with
  | nil => intro r hr; rw [mapEx] at hr; cases hr; rfl
  | cons a t ih =>
    intro r hr
    rw [mapEx] at hr
    cases hfa : f a with
    | error e => rw [hfa] at hr; exact absurd hr (by simp)
    | ok b =>
      rw [hfa] at hr
      cases hft : mapEx f t with
      | error e => rw [hft] at hr; exact absurd hr (by simp)
      | ok bs =>
        rw [hft] at hr
        cases hr
        simp [ih bs hft]

theorem foldl_matAdd_head (ms : List (List (List ℚ))) :
    ∀ A : List (List ℚ), A ≠ [] → (∀ M ∈ ms, M ≠ []) →
      ms.foldl matAdd A ≠ [] ∧
      (ms.foldl matAdd A).headD []
        = ms.foldl (fun acc M => addVec acc (M.headD [])) (A.headD []) := by
  induction ms with
  | nil => intro A hA _; exact ⟨hA, rfl⟩
  | cons M ms ih =>
    intro A hA hM
    obtain ⟨a, A2, rfl⟩ := List.exists_cons_of_ne_nil hA
    obtain ⟨m, M2, rfl⟩ := List.exists_cons_of_ne_nil (hM M (by simp))
    rw [List.foldl_cons, List.foldl_cons]
    have h2 := ih (matAdd (a :: A2) (m :: M2)) (by simp [matAdd])
      (fun M3 hM3 => hM M3 (by simp [hM3]))
    simpa [matAdd] using h2

/- ### Concrete data used by witnesses and counterexamples -/

/-- A two-entry x-vector table whose speaker names come in reverse
lexicographic order of the clip ids. -/
def exTable : Json := Json.obj
  [("c1", Json.obj [("name", Json.str "b"), ("embedding", Json.arr [Json.num 1])]),
   ("c2", Json.obj [("name", Json.str "a"), ("embedding", Json.arr [Json.num 2])])]

/-- A registry holding `exTable`. -/
def exState : Registry := ⟨exTable, Json.arr [], Json.arr []⟩

/-- The spec's mean example: speaker "A" with embeddings `[1,0]` and `[3,0]`. -/
def exTableA : Json := Json.obj
  [("c1.wav", Json.obj [("name", Json.str "A"),
      ("embedding", Json.arr [Json.num 1, Json.num 0])]),
   ("c2.wav", Json.obj [("name", Json.str "A"),
      ("embedding", Json.arr [Json.num 3, Json.num 0])])]

/-- A registry holding `exTableA`. -/
def exStateA : Registry := ⟨exTableA, Json.arr [], Json.arr []⟩

/-- A document that parses but is not of the x-vector shape: its single entry
has no "name" key. -/
def badDoc : Json := Json.obj [("c1", Json.obj [])]

/-- An id-mapping document in which two names share one id. -/
def dupIdsDoc : Json := Json.obj [("a", Json.num 0), ("b", Json.num 0)]

/-- The spec's corpus example: two items with speaker names out of order. -/
def exItems : List (List String) := [["c1.wav", "w", "spk_02"], ["c2.wav", "w", "spk_01"]]

/- ### Claim theorems -/

/-- C3: for every sequence of corpus items carrying a speaker name at position
2, `parse_speakers_from_items` maps each distinct name to its rank in the
lexicographically sorted list of distinct names; the assigned ids are exactly
`0..N-1` for the `N` distinct names; the result depends only on the set of
distinct names (not on item order or multiplicity); an empty input yields an
empty mapping. -/
theorem parse_speakers_sorted_rank_ids (st : Registry) (items : List (List String))
    (h : ∀ it ∈ items, 2 < it.length) :
    (parse_speakers_from_items st items).1
        = Except.ok
          (Json.obj (idMapOf (pySortedSet (items.map (fun it => it.getD 2 "")))),
           (idMapOf (pySortedSet (items.map (fun it => it.getD 2 "")))).length) ∧
    (parse_speakers_from_items st items).2
        = { st with speaker_ids :=
              Json.obj (idMapOf (pySortedSet (items.map (fun it => it.getD 2 "")))) } ∧
    (idMapOf (pySortedSet (items.map (fun it => it.getD 2 "")))).map Prod.fst
        = pySortedSet (items.map (fun it => it.getD 2 "")) ∧
    StrAscending (pySortedSet (items.map (fun it => it.getD 2 ""))) ∧
    (pySortedSet (items.map (fun it => it.getD 2 ""))).Nodup ∧
    (∀ s, s ∈ pySortedSet (items.map (fun it => it.getD 2 ""))
        ↔ s ∈ items.map (fun it => it.getD 2 "")) ∧
    (idMapOf (pySortedSet (items.map (fun it => it.getD 2 "")))).map Prod.snd
        = (List.range (pySortedSet (items.map (fun it => it.getD 2 ""))).length).map
            (fun i => Json.num (i : Nat)) ∧
    (∀ it ∈ items,
      (idMapOf (pySortedSet (items.map (fun it2 => it2.getD 2 "")))).lookup (it.getD 2 "")
        = some (Json.num
            (((pySortedSet (items.map (fun it2 => it2.getD 2 ""))).indexOf
                (it.getD 2 "") : Nat)))) ∧
    (∀ items2 : List (List String), (∀ it ∈ items2, 2 < it.length) →
      (items2.map (fun it => it.getD 2 "")).toFinset
          = (items.map (fun it => it.getD 2 "")).toFinset →
      (parse_speakers_from_items st items2).1 = (parse_speakers_from_items st items).1) ∧
    (parse_speakers_from_items st []).1 = Except.ok (Json.obj [], 0) := by
  refine ⟨?_, ?_, idMapOf_keys _, pySortedSet_sorted _, pySortedSet_nodup _,
    fun s => pySortedSet_mem _ s, idMapOf_values _, ?_, ?_, ?_⟩
  · rw [parse_speakers_from_items, if_pos h]
  · rw [parse_speakers_from_items, if_pos h]
  · intro it hit
    exact idMapOf_lookup _ _ ((pySortedSet_mem _ _).mpr (List.mem_map_of_mem _ hit))
  · intro items2 h2 hset
    rw [parse_speakers_from_items, if_pos h2, parse_speakers_from_items, if_pos h,
      pySortedSet_congr hset]
  · rfl

/-- Witness: `parse_speakers_sorted_rank_ids` applied to the spec's example
corpus assigns `spk_01 ↦ 0`, `spk_02 ↦ 1`. -/
theorem parse_speakers_sorted_rank_ids_witness :
    (∀ it ∈ exItems, 2 < it.length) ∧
    (parse_speakers_from_items Registry.initial exItems).1
        = Except.ok (Json.obj [("spk_01", Json.num 0), ("spk_02", Json.num 1)], 2) :=
  ⟨by decide, by
    rw [(parse_speakers_sorted_rank_ids Registry.initial exItems (by decide)).1]
    rfl⟩

/-- C1 (code bug): `load_x_vectors_file` computes `list(set(sorted(...)))`, so
its derived indices are deduplicated but follow CPython's set iteration order,
which need not be ascending.  Under the admissible iteration order
`setEnumRev`, loading the table `exTable` stores the speaker-name index
`["b", "a"]` and the clip-id index `["c2", "c1"]`, neither of which is in
ascending lexicographic order (the claim's sortedness is violated; the inner
`sorted` is discarded by the outer `set`). -/
theorem load_x_vectors_derived_index_unsorted :
    IsSetEnum setEnumRev ∧
    (load_x_vectors_file Registry.initial (Except.ok exTable) setEnumRev).1
        = Except.ok () ∧
    (load_x_vectors_file Registry.initial (Except.ok exTable) setEnumRev).2.speaker_ids
        = Json.arr [Json.str "b", Json.str "a"] ∧
    (load_x_vectors_file Registry.initial (Except.ok exTable) setEnumRev).2.clip_ids
        = Json.arr [Json.str "c2", Json.str "c1"] ∧
    ¬ StrAscending ["b", "a"] ∧ ¬ StrAscending ["c2", "c1"] :=
  ⟨setEnumRev_isSetEnum, rfl, rfl, rfl, by decide, by decide⟩

/-- C2 (amended): `load_ids_file` is all-or-nothing (a read/parse failure
leaves the state untouched and a parsed document is always accepted whole),
and `load_x_vectors_file` leaves the state untouched on a read/parse failure;
but when its document parses and then turns out not to be of the expected
shape, the x-vector table has already been replaced while both derived
indices keep their previous values. -/
theorem load_failure_leaves_state (st : Registry) (e : PyErr)
    (enum : List String → List String) :
    load_ids_file st (Except.error e) = (Except.error e, st) ∧
    (∀ j : Json, (load_ids_file st (Except.ok j)).1 = Except.ok ()) ∧
    load_x_vectors_file st (Except.error e) enum = (Except.error e, st) ∧
    (∀ j : Json, ∀ e2 : PyErr,
      (load_x_vectors_file st (Except.ok j) enum).1 = Except.error e2 →
      (load_x_vectors_file st (Except.ok j) enum).2 = { st with x_vectors := j }) := by
  refine ⟨rfl, fun j => rfl, rfl, ?_⟩
  intro j e2 hfail
  cases j with
  | obj kvs =>
    rw [load_x_vectors_file] at hfail ⊢
    cases hm : mapEx speakerNameOf (kvs.map Prod.snd) with
    | error e3 => rfl
    | ok names =>
      rw [hm] at hfail
      exact absurd hfail (by simp)
  | null => rfl
  | bool b => rfl
  | num q => rfl
  | str s => rfl
  | arr xs => rfl

/-- Witness: `load_failure_leaves_state` at a concrete error and at the
concrete shape-failing document `badDoc`. -/
theorem load_failure_leaves_state_witness :
    load_ids_file Registry.initial (Except.error PyErr.ioErr)
        = (Except.error PyErr.ioErr, Registry.initial) ∧
    (load_x_vectors_file Registry.initial (Except.ok badDoc) setEnumFirst).2
        = { Registry.initial with x_vectors := badDoc } :=
  ⟨(load_failure_leaves_state Registry.initial PyErr.ioErr setEnumFirst).1,
   (load_failure_leaves_state Registry.initial PyErr.ioErr setEnumFirst).2.2.2 badDoc
     (PyErr.keyErr "name") rfl⟩

/-- C2 counterexample: loading the parseable but malformed document `badDoc`
into a fresh registry fails with `KeyError("name")`, yet the x-vector table
has been replaced (the registry is partially populated: table new, indices
old), refuting all-or-nothing loading as stated. -/
theorem load_x_vectors_not_all_or_nothing :
    (load_x_vectors_file Registry.initial (Except.ok badDoc) setEnumFirst).1
        = Except.error (PyErr.keyErr "name") ∧
    (load_x_vectors_file Registry.initial (Except.ok badDoc) setEnumFirst).2.x_vectors
        = badDoc ∧
    Registry.initial.x_vectors ≠ badDoc ∧
    (load_x_vectors_file Registry.initial (Except.ok badDoc) setEnumFirst).2.speaker_ids
        = Registry.initial.speaker_ids ∧
    (load_x_vectors_file Registry.initial (Except.ok badDoc) setEnumFirst).2.clip_ids
        = Registry.initial.clip_ids :=
  ⟨rfl, rfl, by simp [Registry.initial, badDoc], rfl, rfl⟩

theorem idsFoldr_extract :
    ∀ (kvs : List (String × Json)) (l : List Int),
      kvs.map Prod.snd = l.map (fun i : Int => Json.num (i : ℚ)) →
      (kvs.foldr (fun kv acc =>
        match jsonIntOf kv.2, acc with
        | some i, some l2 => some (i :: l2)
        | _, _ => none) (some [])) = some l := by
  intro kvs
  induction kvs with
  | nil =>
    intro l hl
    cases l with
    | nil => rfl
    | cons i t => simp at hl
  | cons kv tl ih =>
    intro l hl
    cases l with
    | nil => simp at hl
    | cons i t =>
      rw [List.map_cons, List.map_cons] at hl
      injection hl with h1 h2
      rw [List.foldr_cons, ih t h2, h1]
      simp [jsonIntOf]

theorem distinctIdCount_idMapOf (speakers : List String) :
    distinctIdCount (Json.obj (idMapOf speakers)) = some (idMapOf speakers).length := by
  rw [distinctIdCount]
  have hvals : (idMapOf speakers).map Prod.snd
      = ((List.range speakers.length).map (fun i : Nat => (i : Int))).map
          (fun i : Int => Json.num (i : ℚ)) := by
    rw [idMapOf_values, List.map_map]
    apply List.map_congr_left
    intro i _
    simp
  rw [idsFoldr_extract _ _ hvals]
  have hnd : ((List.range speakers.length).map (fun i : Nat => (i : Int))).Nodup :=
    List.Nodup.map (fun a b hab => by exact_mod_cast hab) (List.nodup_range _)
  rw [Option.map_some', List.dedup_eq_self.mpr hnd, List.length_map,
    List.length_range, idMapOf_length]

/-- C9 (amended): `num_speakers` is the entry count of `self.speaker_ids`.
After `load_ids_file` of an object document it equals the number of mapping
entries (distinct speaker names); after `parse_speakers_from_items` it equals
`N`, which does coincide with the number of distinct integer ids because the
parser assigns the injective ids `0..N-1`. -/
theorem num_speakers_counts_mapping_entries (st : Registry)
    (kvs : List (String × Json)) (items : List (List String))
    (hitems : ∀ it ∈ items, 2 < it.length) :
    num_speakers (load_ids_file st (Except.ok (Json.obj kvs))).2 = Except.ok kvs.length ∧
    num_speakers (parse_speakers_from_items st items).2
        = Except.ok (idMapOf (pySortedSet (items.map (fun it => it.getD 2 "")))).length ∧
    distinctIdCount (Json.obj (idMapOf (pySortedSet (items.map (fun it => it.getD 2 "")))))
        = some (idMapOf (pySortedSet (items.map (fun it => it.getD 2 "")))).length := by
  refine ⟨rfl, ?_, distinctIdCount_idMapOf _⟩
  rw [parse_speakers_from_items, if_pos hitems]
  rfl

/-- Witness: `num_speakers_counts_mapping_entries` at the concrete documents
`dupIdsDoc` and `exItems`. -/
theorem num_speakers_counts_mapping_entries_witness :
    (∀ it ∈ exItems, 2 < it.length) ∧
    num_speakers (load_ids_file Registry.initial (Except.ok dupIdsDoc)).2 = Except.ok 2 ∧
    num_speakers (parse_speakers_from_items Registry.initial exItems).2 = Except.ok 2 := by
  have h := num_speakers_counts_mapping_entries Registry.initial
    [("a", Json.num 0), ("b", Json.num 0)] exItems (by decide)
  exact ⟨by decide, h.1, by rw [h.2.1]; rfl⟩

/-- C9 counterexample: loading the id mapping `{"a": 0, "b": 0}` (two names
sharing one id) gives `num_speakers = 2`, while the number of distinct integer
ids in the mapping is 1 — `num_speakers` counts mapping entries, not distinct
ids. -/
theorem num_speakers_not_distinct_ids :
    (load_ids_file Registry.initial (Except.ok dupIdsDoc)).1 = Except.ok () ∧
    num_speakers (load_ids_file Registry.initial (Except.ok dupIdsDoc)).2 = Except.ok 2 ∧
    distinctIdCount dupIdsDoc = some 1 ∧ (2 : Nat) ≠ 1 :=
  ⟨rfl, rfl, rfl, by decide⟩

/-- C4: with `num_samples` unset, `get_mean_x_vector` returns the elementwise
arithmetic mean of the vectors of `get_x_vectors_by_speaker` (for either value
of `randomize`, which is not consulted on this path); a single-entry speaker
gets back exactly its one embedding; a speaker with no vectors fails (empty
stack). -/
theorem mean_x_vector_is_arithmetic_mean (st : Registry) (speaker : String)
    (embJ : List Json) (v : List ℚ) (tl : List (List ℚ))
    (hemb : get_x_vectors_by_speaker st speaker = Except.ok embJ)
    (hvec : mapEx jsonToVec embJ = Except.ok (v :: tl))
    (hdim : ∀ w ∈ tl, w.length = v.length)
    (randomize : Bool) (rnd : List Json → Int → List Json) :
    get_mean_x_vector st speaker none randomize rnd = Except.ok (meanVec (v :: tl)) ∧
    (tl = [] → get_mean_x_vector st speaker none randomize rnd = Except.ok v) ∧
    (∀ st2 : Registry, ∀ s2 : String,
      get_x_vectors_by_speaker st2 s2 = Except.ok [] →
      get_mean_x_vector st2 s2 none randomize rnd
        = Except.error (PyErr.valueErr "need at least one array to stack")) := by
  have hmain : get_mean_x_vector st speaker none randomize rnd
      = Except.ok (meanVec (v :: tl)) := by
    simp only [get_mean_x_vector, hemb, npStackMeanJ, hvec]
    exact npStackMean_ok v tl hdim
  refine ⟨hmain, ?_, ?_⟩
  · intro htl
    subst htl
    rw [hmain, meanVec_single]
  · intro st2 s2 h2
    simp only [get_mean_x_vector, h2, npStackMeanJ, mapEx]
    rfl

/-- Witness: `mean_x_vector_is_arithmetic_mean` on the spec's example table —
speaker "A" holds `[1,0]` and `[3,0]`, whose mean is `[2,0]`. -/
theorem mean_x_vector_is_arithmetic_mean_witness :
    get_x_vectors_by_speaker exStateA "A"
        = Except.ok [Json.arr [Json.num 1, Json.num 0], Json.arr [Json.num 3, Json.num 0]] ∧
    get_mean_x_vector exStateA "A" none false (fun l _ => l)
        = Except.ok (meanVec [[1, 0], [3, 0]]) ∧
    meanVec [[1, 0], [3, 0]] = [2, 0] :=
  ⟨rfl,
   (mean_x_vector_is_arithmetic_mean exStateA "A"
      [Json.arr [Json.num 1, Json.num 0], Json.arr [Json.num 3, Json.num 0]]
      [1, 0] [[3, 0]] rfl rfl
      (by intro w hw; simp at hw; subst hw; rfl)
      false (fun l _ => l)).1,
   by simp [meanVec, List.range_succ]; norm_num⟩

/-- C5: with `randomize=False` and `1 ≤ k ≤ len(get_x_vectors_by_speaker(s))`,
`get_mean_x_vector` returns the elementwise mean of the first `k` stored
embeddings, and the result does not depend on the random source — repeated
calls on the same state return the same value. -/
theorem mean_x_vector_first_k (st : Registry) (speaker : String)
    (embJ : List Json) (vs : List (List ℚ)) (d : Nat) (k : Nat)
    (hemb : get_x_vectors_by_speaker st speaker = Except.ok embJ)
    (hvec : mapEx jsonToVec embJ = Except.ok vs)
    (hdim : ∀ w ∈ vs, w.length = d)
    (hk1 : 1 ≤ k) (hk2 : k ≤ embJ.length)
    (rnd : List Json → Int → List Json) :
    get_mean_x_vector st speaker (some (k : Int)) false rnd
        = Except.ok (meanVec (vs.take k)) ∧
    (∀ rnd2 : List Json → Int → List Json,
      get_mean_x_vector st speaker (some (k : Int)) false rnd
        = get_mean_x_vector st speaker (some (k : Int)) false rnd2) := by
  constructor
  · have hge : ((k : Int) ≤ (embJ.length : Int)) := by exact_mod_cast hk2
    have hslice : pySliceTo embJ (k : Int) = embJ.take k := by
      rw [pySliceTo, if_neg (by omega), Int.toNat_natCast]
    simp only [get_mean_x_vector, hemb, ge_iff_le, hge, if_true, Bool.false_eq_true,
      if_false, hslice, npStackMeanJ, mapEx_take jsonToVec embJ vs hvec k]
    have hlen : vs.length = embJ.length := mapEx_ok_length jsonToVec embJ vs hvec
    cases vs with
    | nil =>
      exfalso
      rw [List.length_nil] at hlen
      omega
    | cons v tl =>
      obtain ⟨k2, rfl⟩ : ∃ k2, k = k2 + 1 := ⟨k - 1, by omega⟩
      rw [List.take_succ_cons]
      exact npStackMean_ok v (tl.take k2)
        (fun w hw => by
          rw [hdim w (List.mem_cons_of_mem v (List.take_subset k2 tl hw)),
            hdim v (List.mem_cons_self v tl)])
  · intro rnd2
    rfl

/-- Witness: `mean_x_vector_first_k` at the example table with `k = 1`: the
mean of the first embedding alone is `[1, 0]`. -/
theorem mean_x_vector_first_k_witness :
    get_mean_x_vector exStateA "A" (some ((1 : Nat) : Int)) false (fun l _ => l)
        = Except.ok (meanVec (([[1, 0], [3, 0]] : List (List ℚ)).take 1)) ∧
    meanVec (([[1, 0], [3, 0]] : List (List ℚ)).take 1) = [1, 0] :=
  ⟨(mean_x_vector_first_k exStateA "A"
      [Json.arr [Json.num 1, Json.num 0], Json.arr [Json.num 3, Json.num 0]]
      [[1, 0], [3, 0]] 2 1 rfl rfl
      (by intro w hw; simp at hw; rcases hw with h | h <;> (subst h; rfl))
      (by omega) (by simp) (fun l _ => l)).1,
   by rw [List.take_succ_cons, List.take_zero, meanVec_single]⟩

/-- C8: when `num_samples` exceeds the number of stored vectors for the
speaker, `get_mean_x_vector` fails — for either value of `randomize` — with
the assert message that names the speaker and the requested sample count; it
never clamps the request to the available count. -/
theorem mean_x_vector_shortfall_asserts (st : Registry) (speaker : String)
    (embJ : List Json) (k : Int)
    (hemb : get_x_vectors_by_speaker st speaker = Except.ok embJ)
    (hk : (embJ.length : Int) < k)
    (randomize : Bool) (rnd : List Json → Int → List Json) :
    get_mean_x_vector st speaker (some k) randomize rnd
        = Except.error (PyErr.assertErr (meanAssertMsg speaker k)) ∧
    (∃ pre post : String, meanAssertMsg speaker k = pre ++ (speaker ++ post)) ∧
    (∃ pre2 post2 : String, meanAssertMsg speaker k = pre2 ++ (toString k ++ post2)) := by
  refine ⟨?_,
    ⟨" [!] speaker ", " has number of samples < " ++ toString k, ?_⟩,
    ⟨" [!] speaker " ++ speaker ++ " has number of samples < ", "", ?_⟩⟩
  · simp only [get_mean_x_vector, hemb, ge_iff_le, not_le.mpr hk, if_false]
  · rw [meanAssertMsg, String.append_assoc, String.append_assoc]
  · rw [String.append_empty]
    rfl

/-- Witness: `mean_x_vector_shortfall_asserts` at the example table — speaker
"A" has 2 embeddings and 5 are requested. -/
theorem mean_x_vector_shortfall_asserts_witness :
    get_mean_x_vector exStateA "A" (some 5) true (fun l _ => l)
        = Except.error (PyErr.assertErr (meanAssertMsg "A" 5)) ∧
    meanAssertMsg "A" 5 = " [!] speaker A has number of samples < 5" :=
  ⟨(mean_x_vector_shortfall_asserts exStateA "A"
      [Json.arr [Json.num 1, Json.num 0], Json.arr [Json.num 3, Json.num 0]]
      5 rfl (by decide) true (fun l _ => l)).1,
   rfl⟩

/-- C6 (amended): `save_ids_file` then `load_ids_file` reproduces the
identical mapping (the registry is unchanged); `save_x_vectors_file` then
`load_x_vectors_file` reproduces the identical table and re-derives both
indices as duplicate-free enumerations of the distinct speaker names and clip
ids — in the set's iteration order, which need not be sorted. -/
theorem save_then_load_round_trip (st : Registry)
    (enum : List String → List String) (henum : IsSetEnum enum)
    (kvs : List (String × Json)) (names : List String)
    (hx : st.x_vectors = Json.obj kvs)
    (hnames : mapEx speakerNameOf (kvs.map Prod.snd) = Except.ok names) :
    load_ids_file st (Except.ok (save_ids_file st)) = (Except.ok (), st) ∧
    (load_x_vectors_file st (Except.ok (save_x_vectors_file st)) enum).1
        = Except.ok () ∧
    (load_x_vectors_file st (Except.ok (save_x_vectors_file st)) enum).2.x_vectors
        = st.x_vectors ∧
    ((load_x_vectors_file st (Except.ok (save_x_vectors_file st)) enum).2.speaker_ids
        = Json.arr ((enum (pySorted names)).map Json.str) ∧
      (enum (pySorted names)).Nodup ∧
      (∀ a, a ∈ enum (pySorted names) ↔ a ∈ names)) ∧
    ((load_x_vectors_file st (Except.ok (save_x_vectors_file st)) enum).2.clip_ids
        = Json.arr ((enum (pySorted (kvs.map Prod.fst))).map Json.str) ∧
      (enum (pySorted (kvs.map Prod.fst))).Nodup ∧
      (∀ a, a ∈ enum (pySorted (kvs.map Prod.fst)) ↔ a ∈ kvs.map Prod.fst)) := by
  have hids : load_ids_file st (Except.ok (save_ids_file st)) = (Except.ok (), st) := by
    rw [load_ids_file, save_ids_file]
  have hload : load_x_vectors_file st (Except.ok (save_x_vectors_file st)) enum
      = (Except.ok (),
         { x_vectors := Json.obj kvs,
           speaker_ids := Json.arr ((enum (pySorted names)).map Json.str),
           clip_ids := Json.arr ((enum (pySorted (kvs.map Prod.fst))).map Json.str) }) := by
    rw [save_x_vectors_file, hx]
    simp only [load_x_vectors_file, hnames]
  refine ⟨hids, by rw [hload], by rw [hload, hx], ⟨by rw [hload], (henum _).1, ?_⟩,
    ⟨by rw [hload], (henum _).1, ?_⟩⟩
  · intro a
    exact ((henum (pySorted names)).2 a).trans (pySorted_perm names).mem_iff
  · intro a
    exact ((henum (pySorted (kvs.map Prod.fst))).2 a).trans
      (pySorted_perm (kvs.map Prod.fst)).mem_iff

/-- Witness: `save_then_load_round_trip` at the concrete registry `exState`
with the iteration order `setEnumFirst`. -/
theorem save_then_load_round_trip_witness :
    IsSetEnum setEnumFirst ∧
    load_ids_file exState (Except.ok (save_ids_file exState)) = (Except.ok (), exState) ∧
    (load_x_vectors_file exState (Except.ok (save_x_vectors_file exState)) setEnumFirst).2.x_vectors
        = exState.x_vectors :=
  ⟨setEnumFirst_isSetEnum,
   (save_then_load_round_trip exState setEnumFirst setEnumFirst_isSetEnum
      [("c1", Json.obj [("name", Json.str "b"), ("embedding", Json.arr [Json.num 1])]),
       ("c2", Json.obj [("name", Json.str "a"), ("embedding", Json.arr [Json.num 2])])]
      ["b", "a"] rfl rfl).1,
   (save_then_load_round_trip exState setEnumFirst setEnumFirst_isSetEnum
      [("c1", Json.obj [("name", Json.str "b"), ("embedding", Json.arr [Json.num 1])]),
       ("c2", Json.obj [("name", Json.str "a"), ("embedding", Json.arr [Json.num 2])])]
      ["b", "a"] rfl rfl).2.2.1⟩

/-- C6 counterexample: saving `exState`'s table and loading it back under the
admissible iteration order `setEnumRev` re-derives the speaker-name index
`["b", "a"]`, which is not sorted ascending — the round trip does not
re-derive a sorted index as claimed. -/
theorem round_trip_index_unsorted :
    IsSetEnum setEnumRev ∧
    (load_x_vectors_file exState (Except.ok (save_x_vectors_file exState)) setEnumRev).1
        = Except.ok () ∧
    (load_x_vectors_file exState (Except.ok (save_x_vectors_file exState)) setEnumRev).2.x_vectors
        = exState.x_vectors ∧
    (load_x_vectors_file exState (Except.ok (save_x_vectors_file exState)) setEnumRev).2.speaker_ids
        = Json.arr [Json.str "b", Json.str "a"] ∧
    ¬ StrAscending ["b", "a"] :=
  ⟨setEnumRev_isSetEnum, rfl, rfl, rfl, by decide⟩

/-- C7: for a non-empty list of paths, `compute_x_vector_from_clip` returns
the elementwise arithmetic mean of the per-path embeddings that the
single-path calls return (the encoder is a fixed black box; all embeddings
share one shape). -/
theorem compute_x_vector_from_clip_mean (compute : String → List (List ℚ))
    (w : String) (ws : List String)
    (hw : compute w ≠ [])
    (hws : ∀ p ∈ ws, compute p ≠ [] ∧
      ((compute p).headD []).length = ((compute w).headD []).length) :
    compute_x_vector_from_clip compute (WavInput.multi (w :: ws))
        = Except.ok (meanVec ((w :: ws).map (fun p => (compute p).headD []))) ∧
    (∀ p ∈ w :: ws, compute_x_vector_from_clip compute (WavInput.single p)
        = Except.ok ((compute p).headD [])) := by
  constructor
  · obtain ⟨hne, hhead⟩ := foldl_matAdd_head (ws.map compute) (compute w) hw
      (by intro M hM; rw [List.mem_map] at hM; obtain ⟨p, hp, rfl⟩ := hM; exact (hws p hp).1)
    have h1 : ws.foldl (fun acc wf => matAdd acc (compute wf)) (compute w)
        = (ws.map compute).foldl matAdd (compute w) :=
      (List.foldl_map compute matAdd ws (compute w)).symm
    rw [compute_x_vector_from_clip, h1]
    obtain ⟨r, rest, htot⟩ := List.exists_cons_of_ne_nil hne
    rw [htot, List.map_cons, tensorHeadRow]
    have h2 : ((ws.map compute).foldl (fun acc M => addVec acc (M.headD []))
          ((compute w).headD []))
        = ((ws.map compute).map (fun M => M.headD [])).foldl addVec
            ((compute w).headD []) :=
      (List.foldl_map (fun M => M.headD []) addVec (ws.map compute) _).symm
    have hr : r = ((ws.map compute).map (fun M => M.headD [])).foldl addVec
        ((compute w).headD []) := by
      rw [← h2, ← hhead, htot, List.headD_cons]
    rw [hr, foldl_addVec_eq ((ws.map compute).map (fun M => M.headD []))
        ((compute w).headD [])
        (by intro u hu
            rw [List.map_map, List.mem_map] at hu
            obtain ⟨p, hp, rfl⟩ := hu
            exact (hws p hp).2),
      List.map_map, meanVec, List.map_cons, List.headD_cons]
    congr 1
    apply List.map_congr_left
    intro j hj
    rw [Function.comp_apply, List.map_cons, List.sum_cons, List.length_cons,
      List.length_map, List.map_map, List.map_map, add_div]
    simp [Function.comp_def, add_div]
  · intro p hp
    have hne : compute p ≠ [] := by
      rcases List.mem_cons.mp hp with h | h
      · rw [h]; exact hw
      · exact (hws p h).1
    obtain ⟨r, rest, hr⟩ := List.exists_cons_of_ne_nil hne
    rw [compute_x_vector_from_clip, hr, tensorHeadRow, List.headD_cons]

/-- Witness: `compute_x_vector_from_clip_mean` for a two-path list under a
concrete black-box encoder: the result is the elementwise average of the two
per-path embeddings. -/
theorem compute_x_vector_from_clip_mean_witness :
    compute_x_vector_from_clip (fun p => if p == "x.wav" then [[1, 0]] else [[3, 0]])
        (WavInput.multi ["x.wav", "y.wav"])
        = Except.ok (meanVec (["x.wav", "y.wav"].map
            (fun p => ((if p == "x.wav" then [[1, 0]] else ([[3, 0]] : List (List ℚ))).headD [])))) ∧
    meanVec (["x.wav", "y.wav"].map
        (fun p => ((if p == "x.wav" then [[1, 0]] else ([[3, 0]] : List (List ℚ))).headD [])))
      = [2, 0] :=
  ⟨(compute_x_vector_from_clip_mean (fun p => if p == "x.wav" then [[1, 0]] else [[3, 0]])
      "x.wav" ["y.wav"] (by simp)
      (by intro p hp; simp at hp; subst hp; constructor <;> simp)).1,
   by simp [meanVec, List.range_succ]; norm_num⟩

/-- C10: none of the query operations — clip lookup, per-speaker collection,
mean aggregation with any argument combination (including `randomize=True`),
`get_speakers`, `get_clips`, `num_speakers`, `x_vector_dim` — changes any
field of the registry, whether it returns a value or fails: the method bodies
assign no `self.` field. -/
theorem queries_leave_registry_unchanged (st : Registry) (clip speaker : String)
    (num_samples : Option Int) (randomize : Bool)
    (rnd : List Json → Int → List Json) :
    (get_x_vector_by_clipS st clip).2 = st ∧
    (get_x_vectors_by_speakerS st speaker).2 = st ∧
    (get_mean_x_vectorS st speaker num_samples randomize rnd).2 = st ∧
    (get_speakersS st).2 = st ∧
    (get_clipsS st).2 = st ∧
    (num_speakersS st).2 = st ∧
    (x_vector_dimS st).2 = st :=
  ⟨rfl, rfl, rfl, rfl, rfl, rfl, rfl⟩
